import Mathlib

/-!
# Verification of the beckn-onix request-processing core

A shallow embedding of the beckn-onix handler pipeline, auth-header codec,
response encoder and dispatcher, translated from the Go sources
(`core/module/handler/step.go`, `core/module/handler/postResponse.go`,
`pkg/response`, the schema-validator plugin), together with theorems about
the observable behaviour of those functions.

Go strings are modelled as `List Char`; machine integers (unix timestamps,
HTTP status codes) as `Int`; outcomes of external collaborators (the wall
clock, plugin calls, `encoding/json`, the `jsonschema` library) are passed
in as explicit parameters, exactly where the Go code consults them.
-/

namespace BecknOnix

/-- Go strings, modelled as lists of characters. -/
abbrev Str := List Char

/-- The double-quote character, written via its code point. -/
def quoteChar : Char := Char.ofNat 34

/-- ASCII whitespace, the relevant fragment of Go's `unicode.IsSpace`
used by `strings.TrimSpace`. -/
def goIsSpace (c : Char) : Bool :=
  c == ' ' || c == '\t' || c == '\n' || c == '\r'

/-- Left part of Go's `strings.TrimSpace`. -/
def trimLeft (s : Str) : Str := s.dropWhile goIsSpace

/-- Right part of Go's `strings.TrimSpace`. -/
def trimRight (s : Str) : Str := (s.reverse.dropWhile goIsSpace).reverse

/-- Go's `strings.TrimSpace`. -/
def goTrim (s : Str) : Str := trimRight (trimLeft s)

/-- Go's `strings.Split(s, sep)` for a one-character separator. -/
def splitOnChar (sep : Char) : Str → List Str
  | [] => [[]]
  | c :: cs =>
    if c = sep then [] :: splitOnChar sep cs
    else
      match splitOnChar sep cs with
      | [] => [[c]]
      | p :: ps => (c :: p) :: ps

/-- Go's `strings.Index(hay, needle)`: index of the first occurrence of
`needle` in `hay`, `none` when absent (Go returns `-1`). -/
def indexOfSub (needle : Str) : Str → Option Nat
  | [] => if needle = [] then some 0 else none
  | c :: cs =>
    if needle.isPrefixOf (c :: cs) then some 0
    else (indexOfSub needle cs).map (· + 1)

/-- Go's `strings.Index(hay, string(ch))` for a single character. -/
def indexOfChar (ch : Char) : Str → Option Nat
  | [] => none
  | c :: cs => if c = ch then some 0 else (indexOfChar ch cs).map (· + 1)

/-- The literal `keyId="` that `parseHeader` searches for. -/
def keyIdMarker : Str := "keyId=".data ++ [quoteChar]

/-- The parsed components of the `keyId` field of a `Signature` header
(`authHeader` in `step.go`). -/
structure AuthHeader where
  SubscriberID : Str
  UniqueID : Str
  Algorithm : Str
deriving DecidableEq, Repr

/-- `parseHeader` from `step.go`: locate the quoted value of `keyId=`,
trim it, split on `|`, and require exactly three components; each
component is trimmed again.  `none` models the Go error returns. -/
def parseHeader (header : Str) : Option AuthHeader :=
  let keyIDPart : Str :=
    match indexOfSub keyIdMarker header with
    | none => []
    | some i =>
      let rest := header.drop (i + keyIdMarker.length)
      match indexOfChar quoteChar rest with
      | none => []
      | some j => goTrim (rest.take j)
  if keyIDPart = [] then none
  else
    match splitOnChar '|' keyIDPart with
    | [a, b, c] => some ⟨goTrim a, goTrim b, goTrim c⟩
    | _ => none

/-- `signStep.generateAuthHeader` from `step.go`: the literal
`Signature keyId="{sub}|{kid}|ed25519",algorithm="ed25519",created="{c}",expires="{e}",headers="(created) (expires) digest",signature="{sig}"`. -/
def generateAuthHeader (subID keyID : Str) (createdAt validTill : Int) (signature : Str) : Str :=
  "Signature keyId=".data ++ [quoteChar] ++ subID ++ "|".data ++ keyID ++ "|ed25519".data
    ++ [quoteChar] ++ ",algorithm=".data ++ [quoteChar] ++ "ed25519".data ++ [quoteChar]
    ++ ",created=".data ++ [quoteChar] ++ (toString createdAt).data ++ [quoteChar]
    ++ ",expires=".data ++ [quoteChar] ++ (toString validTill).data ++ [quoteChar]
    ++ ",headers=".data ++ [quoteChar] ++ "(created) (expires) digest".data ++ [quoteChar]
    ++ ",signature=".data ++ [quoteChar] ++ signature ++ [quoteChar]

example :
    parseHeader (generateAuthHeader "bpp.example.com".data "key-1".data 10 310 "sg".data)
      = some ⟨"bpp.example.com".data, "key-1".data, "ed25519".data⟩ := by decide

example : parseHeader "Signature algorithm=x".data = none := by decide

/-! ## Error taxonomy and the response encoder (`pkg/response`)

Errors flowing to `SendNack` are modelled as an inductive: each typed kind
of the model package that `SendNack` recognises with `errors.As`, the
untyped `fmt.Errorf` errors, and `fmt.Errorf("...: %w", err)` wrapping. -/

/-- Errors as they reach the response encoder.  `wrapped` models
`fmt.Errorf` with `%w`; `errors.As` searches through it. -/
inductive GoError where
  /-- `model.SchemaValidationErr`: a list of `(Paths, Message)` entries. -/
  | schemaValidationErr (errs : List (Str × Str))
  /-- `model.SignValidationErr`. -/
  | signValidationErr (msg : Str)
  /-- `model.BadReqErr` (`model.NewBadReqErr`). -/
  | badReqErr (msg : Str)
  /-- `model.NotFoundErr`. -/
  | notFoundErr (msg : Str)
  /-- `model.WorkbenchErr` with its `Behavior`, inner Beckn code, message
  and optional context payload. -/
  | workbenchErr (behavior : Str) (code : Str) (msg : Str) (context : Option Str)
  /-- A plain `fmt.Errorf`/`errors.New` error of no recognised kind. -/
  | plainErr (msg : Str)
  /-- `fmt.Errorf("<pre>: %w", inner)`. -/
  | wrapped (pre : Str) (inner : GoError)
deriving DecidableEq, Repr

/-- `errors.As(err, &model.SchemaValidationErr)`: unwrap to the nearest
schema-validation error. -/
def asSchemaErr : GoError → Option (List (Str × Str))
  | .wrapped _ inner => asSchemaErr inner
  | .schemaValidationErr errs => some errs
  | _ => none

/-- `errors.As(err, &model.SignValidationErr)`. -/
def asSignErr : GoError → Option Str
  | .wrapped _ inner => asSignErr inner
  | .signValidationErr m => some m
  | _ => none

/-- `errors.As(err, &model.BadReqErr)`. -/
def asBadReqErr : GoError → Option Str
  | .wrapped _ inner => asBadReqErr inner
  | .badReqErr m => some m
  | _ => none

/-- `errors.As(err, &model.NotFoundErr)`. -/
def asNotFoundErr : GoError → Option Str
  | .wrapped _ inner => asNotFoundErr inner
  | .notFoundErr m => some m
  | _ => none

/-- `errors.As(err, &model.WorkbenchErr)`. -/
def asWorkbenchErr : GoError → Option (Str × Str × Str × Option Str)
  | .wrapped _ inner => asWorkbenchErr inner
  | .workbenchErr b c m cx => some (b, c, m, cx)
  | _ => none

/-- The fields of `model.Error` that `nack` reads: `Code`, `Message` and
the optional `Context` payload. -/
structure ModelError where
  Code : Str
  Message : Str
  Context : Option Str
deriving DecidableEq, Repr

/-- The NACK response written by `nack`: HTTP status, ack status, the
top-level `error` object (`Code`/`Message`), the optional `context`, and
the message-level error message that the `"500"` redaction branch writes
(`resp.Message.Error.Message`). -/
structure NackResponse where
  httpStatus : Int
  ackStatus : Str
  errCode : Str
  errMessage : Str
  context : Option Str
  msgErrMessage : Option Str
deriving DecidableEq, Repr

/-- `fmt.Sprintf("%s", ctx.Value(model.ContextKeyMsgID))`: the message id
when present in the ambient context, Go's `%!s(<nil>)` otherwise. -/
def fmtMsgID : Option Str → Str
  | some s => s
  | none => "%!s(<nil>)".data

/-- `nack` from `pkg/response`: build the NACK body from a `model.Error`
and a status; copy the context when present; when the error code is the
literal `"500"`, overwrite `resp.Message.Error.Message` with
`INTERNAL_SERVER_ERROR` (note: the message-level field, not the top-level
`error`). -/
def nack (e : ModelError) (status : Int) : NackResponse :=
  ⟨status, "NACK".data, e.Code, e.Message, e.Context,
    if e.Code = "500".data then some "INTERNAL_SERVER_ERROR".data else none⟩

/-- `internalServerError` from `pkg/response`: code
`http.StatusText(500) = "Internal Server Error"` and a generic message
carrying the ambient MessageID. -/
def internalServerError (msgID : Option Str) : ModelError :=
  ⟨"Internal Server Error".data,
    "Internal server error, MessageID: ".data ++ fmtMsgID msgID, none⟩

/-- Go's `strconv.Atoi`, as used on `workbenchErr.Err.Code` (the parse
error is discarded, so a non-numeric code yields `0`). -/
def goAtoi (s : Str) : Int :=
  if s ≠ [] ∧ s.all (·.isDigit) then (s.foldl (fun n c => n * 10 + (c.toNat - 48)) 0 : Nat)
  else 0

/-- Modelled from the spec: the `BecknError()` methods of the typed error
kinds live in the model package, which is not under `src/`.  Per §7 each
kind yields a Beckn-coded `model.Error`; the schema kind reports the
per-field `errors[]` list, which we serialise into the message so that
every failing JSON path appears in the NACK payload. -/
def serializeSchemaErrors (errs : List (Str × Str)) : Str :=
  (errs.map (fun pm => pm.1 ++ ": ".data ++ pm.2 ++ "; ".data)).flatten

/-- Modelled from the spec: `model.SchemaValidationErr.BecknError()`
(model package not under `src/`), a Beckn-coded error listing each
failing path (§7). -/
def schemaBecknError (errs : List (Str × Str)) : ModelError :=
  ⟨"SCHEMA_VALIDATION_FAILED".data, serializeSchemaErrors errs, none⟩

/-- Modelled from the spec: `model.SignValidationErr.BecknError()`. -/
def signBecknError (msg : Str) : ModelError :=
  ⟨"SIGN_VALIDATION_FAILED".data, msg, none⟩

/-- Modelled from the spec: `model.BadReqErr.BecknError()`. -/
def badReqBecknError (msg : Str) : ModelError :=
  ⟨"BAD_REQUEST".data, msg, none⟩

/-- Modelled from the spec: `model.NotFoundErr.BecknError()`. -/
def notFoundBecknError (msg : Str) : ModelError :=
  ⟨"NOT_FOUND".data, msg, none⟩

/-- Modelled from the spec: `model.WorkbenchErr.BecknError()` carries the
inner code, message and context. -/
def workbenchBecknError (code msg : Str) (cx : Option Str) : ModelError :=
  ⟨code, msg, cx⟩

/-- `SendNack` from `pkg/response`: dispatch on the recognised error kind
in the order of the Go `switch` (workbench, schema, sign, bad request,
not found, default).  A workbench error whose behaviour is neither
`"NACK"` nor `"HTTP"` falls out of both switches without writing
anything, hence the `Option`. -/
def SendNack (msgID : Option Str) (err : GoError) : Option NackResponse :=
  match asWorkbenchErr err with
  | some (behavior, code, msg, cx) =>
    if behavior = "NACK".data then some (nack (workbenchBecknError code msg cx) 200)
    else if behavior = "HTTP".data then
      some (nack (workbenchBecknError code msg cx) (goAtoi code))
    else none
  | none =>
    match asSchemaErr err with
    | some errs => some (nack (schemaBecknError errs) 200)
    | none =>
      match asSignErr err with
      | some m => some (nack (signBecknError m) 401)
      | none =>
        match asBadReqErr err with
        | some m => some (nack (badReqBecknError m) 400)
        | none =>
          match asNotFoundErr err with
          | some m => some (nack (notFoundBecknError m) 404)
          | none => some (nack (internalServerError msgID) 500)

/-- JSON values, for the bodies written by `SendBody`. -/
inductive Json where
  | null
  | bool (b : Bool)
  | num (n : Int)
  | str (s : Str)
  | arr (xs : List Json)
  | obj (fields : List (Str × Json))

/-- `parseJSONOrDefault` from `pkg/response`: `encoding/json` is an
external collaborator, so the outcome of `json.Unmarshal` on the string
is passed in (`none` = parse failure); on failure the string is wrapped
as `{"message": str}`. -/
def parseJSONOrDefault (unmarshal : Option Json) (s : Str) : Json :=
  match unmarshal with
  | some v => v
  | none => .obj [("message".data, .str s)]

/-- One HTTP response write, as produced by the handler and dispatcher. -/
inductive HttpWrite where
  /-- `SendAck`: HTTP 200, `{"message":{"ack":{"status":"ACK"}}}`. -/
  | ackResp
  /-- `nack`/`SendNack` wrote this NACK. -/
  | nackResp (n : NackResponse)
  /-- `SendBody`: HTTP 200 with the given JSON body. -/
  | bodyResp (status : Int) (body : Json)
  /-- The reverse proxy streamed the upstream response. -/
  | proxiedResp
  /-- Nothing was written (workbench behaviour fallthrough in `SendNack`). -/
  | noWrite

/-- `SendBody` from `pkg/response`: marshal the cookie value (parsed as
JSON or wrapped) and write it with HTTP 200. -/
def SendBody (unmarshal : Option Json) (s : Str) : HttpWrite :=
  .bodyResp 200 (parseJSONOrDefault unmarshal s)

/-- Lift the `Option NackResponse` of `SendNack` into an `HttpWrite`. -/
def nackWrite (r : Option NackResponse) : HttpWrite :=
  match r with
  | some n => .nackResp n
  | none => .noWrite

/-! ## Handler data model (`pkg/model`, as used by the handler) -/

/-- `model.Role`. -/
inductive Role where
  | bap
  | bpp
  | gateway
deriving DecidableEq, Repr

/-- `model.Route`, the fields copied by `addRouteStep.Run`. -/
structure Route where
  TargetType : Str
  PublisherID : Str
  URL : Str
  ActAsProxy : Bool
deriving DecidableEq, Repr

/-- `model.KeySet`, the fields used by `signStep.Run`. -/
structure KeySet where
  SigningPrivate : Str
  UniqueKeyID : Str
deriving DecidableEq, Repr

/-- The request/response headers the steps touch. -/
inductive HeaderName where
  /-- `model.AuthHeaderSubscriber`. -/
  | authSubscriber
  /-- `model.AuthHeaderGateway`. -/
  | authGateway
  /-- `model.UnaAuthorizedHeaderGateway`, the challenge response header. -/
  | unauthGateway
deriving DecidableEq, Repr

/-- `model.StepContext`, the fields the pipeline reads and writes. -/
structure StepContext where
  Body : Str
  SubID : Str
  Role : Role
  Route : Option Route
deriving DecidableEq, Repr

/-! ## Pipeline executor (`stdHandler.ServeHTTP`, `postResponse.go`) -/

/-- One pipeline step: `definition.Step.Run` mutates the step context and
may return an error. -/
abbrev PipeStep := StepContext → StepContext × Option GoError

/-- The result of running the step loop of `ServeHTTP`: the final
context, the positions whose `Run` was invoked (in invocation order) and
the aborting error, if any. -/
structure PipeResult where
  state : StepContext
  trace : List Nat
  err : Option GoError
deriving Repr

/-- The `for _, step := range h.steps` loop of `ServeHTTP`, started at
position `i`: run each step in order; on the first error stop without
invoking any later step. -/
def runStepsFrom : Nat → List PipeStep → StepContext → PipeResult
  | _, [], st => ⟨st, [], none⟩
  | i, f :: fs, st =>
    match f st with
    | (st', some e) => ⟨st', [i], some e⟩
    | (st', none) =>
      let r := runStepsFrom (i + 1) fs st'
      ⟨r.state, i :: r.trace, r.err⟩

/-- The step loop of `ServeHTTP` from position 0. -/
def runSteps (steps : List PipeStep) (st : StepContext) : PipeResult :=
  runStepsFrom 0 steps st

/-- What `ServeHTTP` does after the step loop: a step error is surfaced
to the response encoder (`response.SendNack`); otherwise the final
context proceeds to dispatch. -/
inductive ServeOutcome where
  | nackedWith (w : Option NackResponse)
  | dispatched (final : StepContext)

/-- The step-loop-and-surface part of `stdHandler.ServeHTTP`. -/
def serveHTTP (steps : List PipeStep) (st : StepContext) (msgID : Option Str) : ServeOutcome :=
  let r := runSteps steps st
  match r.err with
  | some e => .nackedWith (SendNack msgID e)
  | none => .dispatched r.state

/-! ## The `sign` step (`signStep.Run`, `step.go`)

The wall clock and the Signer/KeyManager plugins are external: the unix
seconds of the two separate `time.Now()` calls (`u1` for `createdAt`,
`u2` for the `Add(5 * time.Minute)` expiry) and the plugin outcomes are
inputs. -/

/-- `signStep.Run`: require a subscriber id, fetch the key set, compute
`createdAt = u1` and `validTill = u2 + 300`, sign, and set the
subscriber- or gateway-class header to the generated auth header. -/
def signStepRun (subID : Str) (km : Except GoError KeySet) (signer : Except GoError Str)
    (u1 u2 : Int) (role : Role) : Except GoError (HeaderName × Str) :=
  if subID.length = 0 then .error (.badReqErr "subscriberID not set".data)
  else
    match km with
    | .error e => .error (.wrapped "failed to get signing key".data e)
    | .ok ks =>
      let createdAt := u1
      let validTill := u2 + 300
      match signer with
      | .error e => .error (.wrapped "failed to sign request".data e)
      | .ok sig =>
        let authHeader := generateAuthHeader subID ks.UniqueKeyID createdAt validTill sig
        let header := if role = .gateway then HeaderName.authGateway else .authSubscriber
        .ok (header, authHeader)

/-! ## The `validateSign` step (`validateSignStep`, `step.go`) -/

/-- The plugin calls `validateSignStep` can make. -/
inductive PluginCall where
  /-- `km.LookupNPKeys(subscriberID, uniqueKeyID)`. -/
  | kmLookup (sub kid : Str)
  /-- `validator.Validate(body, header, key)`. -/
  | svValidate
deriving DecidableEq, Repr

/-- `validateSignStep.validate`: parse the header, look up the public
key, and call the sign validator; returns the error and the plugin calls
made, in order.  `lookupRes` and `validateRes` are the outcomes of the
KeyManager and SignValidator plugins. -/
def validateSignValidate (value : Str) (lookupRes : Except GoError Str)
    (validateRes : Option GoError) : Option GoError × List PluginCall :=
  match parseHeader value with
  | none => (some (.plainErr "failed to parse header".data), [])
  | some hv =>
    match lookupRes with
    | .error e =>
      (some (.wrapped "failed to get validation key".data e),
        [.kmLookup hv.SubscriberID hv.UniqueID])
    | .ok _ =>
      match validateRes with
      | some e =>
        (some (.wrapped "sign validation failed".data e),
          [.kmLookup hv.SubscriberID hv.UniqueID, .svValidate])
      | none => (none, [.kmLookup hv.SubscriberID hv.UniqueID, .svValidate])

/-- The challenge header value `Signature realm="{subID}",headers="(created) (expires) digest"`. -/
def unauthHeaderValue (subID : Str) : Str :=
  "Signature realm=".data ++ [quoteChar] ++ subID ++ [quoteChar]
    ++ ",headers=".data ++ [quoteChar] ++ "(created) (expires) digest".data ++ [quoteChar]

/-- `validateSignStep.validateHeaders`: skip when the `header_validation`
cookie is `"false"` (a missing cookie defaults to `"true"`); otherwise
validate the subscriber-class `Authorization` header only when it is
non-empty.  Returns the step error, the plugin calls made, and the
response header set on failure. -/
def validateHeadersRun (cookie : Option Str) (headerValue : Str) (subID : Str)
    (lookupRes : Except GoError Str) (validateRes : Option GoError) :
    Option GoError × List PluginCall × Option (HeaderName × Str) :=
  let cookieVal := match cookie with | some c => c | none => "true".data
  if cookieVal = "false".data then (none, [], none)
  else if headerValue.length ≠ 0 then
    match validateSignValidate headerValue lookupRes validateRes with
    | (some _, calls) =>
      (some (.signValidationErr "failed to validate auth header".data),
        calls, some (.unauthGateway, unauthHeaderValue subID))
    | (none, calls) => (none, calls, none)
  else (none, [], none)

/-! ## Dispatcher (`route`, `postResponse.go`) and post-response hooks -/

/-- An upstream delivery performed by the dispatcher or by a deferred hook. -/
inductive Delivery where
  /-- `makeAsyncRequest`: POST the body to the target URL. -/
  | httpPost (url : Str) (body : Str)
  /-- `pb.Publish(publisherID, body)`. -/
  | publishCall (topic : Str) (body : Str)
deriving DecidableEq, Repr

/-- A registered post-response hook, modelled by the deliveries its
closure performs when invoked (the closure switches on the route's
target type at run time). -/
abbrev Hook := List Delivery

/-- `RegisterPostResponseHook` from `postResponse.go`: when the
middleware attached no hook slice to the context (or it is nil), return
silently and discard the hook; otherwise append it. -/
def registerPostResponseHook (slot : Option (List Hook)) (h : Hook) : Option (List Hook) :=
  match slot with
  | none => none
  | some hs => some (hs ++ [h])

/-- Modelled from the spec: the post-response middleware itself is not
under `src/`.  Per §4.6 it invokes the attached closures in registration
order after the response is written; with no attached slice nothing
runs. -/
def runPostResponseHooks (slot : Option (List Hook)) : List Delivery :=
  (slot.getD []).flatten

/-- The deliveries performed by the closure that the async branch of
`route` registers: a URL POST for target type `url`, a publish for
`publisher` (nothing when the Publisher plugin is missing), and nothing
for any other target type. -/
def hookDeliveries (r : Route) (body : Str) (pbConfigured : Bool) : List Delivery :=
  if r.TargetType = "url".data then [.httpPost r.URL body]
  else if r.TargetType = "publisher".data then
    if pbConfigured then [.publishCall r.PublisherID body] else []
  else []

/-- The observable outcome of `route`: the response written to the
client, the synchronous `Publish` calls, and the post-response hook
slice after dispatch. -/
structure DispatchResult where
  write : HttpWrite
  publishCalls : List (Str × Str)
  hooksAfter : Option (List Hook)

/-- `route` from `postResponse.go`.  `ActAsProxy=true:` target type
`url` reverse-proxies, `publisher` publishes synchronously (ACK on
success, NACK on error, NACK when the plugin is missing), and any other
target type — including `msgq` — hits the `default` branch: NACK
`unknown route type`, no publish.  `ActAsProxy=false:` write the
`custom-response-body` cookie value (`SendBody`) or an immediate ACK,
then register the deferred delivery hook.  `publishRes` is the outcome
of `pb.Publish` (`none` = success); `unmarshal` the outcome of
`json.Unmarshal` on the cookie value; `msgID` the ambient message id. -/
def routeDispatch (r : Route) (body : Str) (cookie : Option Str) (unmarshal : Option Json)
    (pbConfigured : Bool) (publishRes : Option GoError) (slot : Option (List Hook))
    (msgID : Option Str) : DispatchResult :=
  if r.ActAsProxy then
    if r.TargetType = "url".data then ⟨.proxiedResp, [], slot⟩
    else if r.TargetType = "publisher".data then
      if ¬ pbConfigured then
        ⟨nackWrite (SendNack msgID (.plainErr "publisher plugin not configured".data)), [], slot⟩
      else
        match publishRes with
        | some e => ⟨nackWrite (SendNack msgID e), [(r.PublisherID, body)], slot⟩
        | none => ⟨.ackResp, [(r.PublisherID, body)], slot⟩
    else
      ⟨nackWrite (SendNack msgID (.plainErr ("unknown route type: ".data ++ r.TargetType))), [], slot⟩
  else
    let w :=
      match cookie with
      | some v => SendBody unmarshal v
      | none => .ackResp
    ⟨w, [], registerPostResponseHook slot (hookDeliveries r body pbConfigured)⟩

/-! ## Schema validation (`schemaValidator.Validate`, plugin under `src/`) -/

/-- Outcome of `schemaValidator.getCompiledSchema`. -/
inductive SchemaLookup where
  /-- The schema key was not indexed (`errSchemaKeyNotFound`). -/
  | notFound
  /-- Compilation failed with some other error. -/
  | otherErr (msg : Str)
  /-- A compiled schema is available. -/
  | found
deriving DecidableEq, Repr

/-- Outcome of `schema.Validate(jsonData)` of the external `jsonschema`
library: success, a `*jsonschema.ValidationError` with its causes
(`InstanceLocation` segments and message each), or some other error. -/
inductive SchemaOutcome where
  | ok
  | validationError (causes : List (List Str × Str))
  | otherError (msg : Str)
deriving DecidableEq, Repr

/-- Go's `strings.Join(parts, ".")`, building the JSON path of a cause. -/
def joinDot (parts : List Str) : Str :=
  List.intercalate ".".data parts

/-- `schemaValidator.Validate` from the schema-validator plugin: parse
the context envelope (outcome of `json.Unmarshal` passed as `p`), check
domain and version, look up the compiled schema, parse the document, and
validate; a `jsonschema.ValidationError` becomes a
`model.SchemaValidationErr` with one `(path, message)` entry per cause. -/
def schemaValidatorValidate (p : Option (Str × Str × Str)) (schemaRes : SchemaLookup)
    (dataOk : Bool) (valRes : SchemaOutcome) : Option GoError :=
  match p with
  | none => some (.badReqErr "failed to parse JSON payload".data)
  | some (domain, version, coreVersion) =>
    if domain = [] then some (.badReqErr "missing field Domain in context".data)
    else if version = [] ∧ coreVersion = [] then
      some (.badReqErr "missing field Version or CoreVersion in context".data)
    else
      match schemaRes with
      | .notFound => some (.badReqErr ("schema not found for domain: ".data ++ domain))
      | .otherErr m => some (.badReqErr m)
      | .found =>
        if ¬ dataOk then some (.badReqErr "failed to parse JSON data".data)
        else
          match valRes with
          | .ok => none
          | .validationError causes =>
            some (.schemaValidationErr (causes.map (fun c => (joinDot c.1, c.2))))
          | .otherError m => some (.plainErr ("validation failed: ".data ++ m))

/-! ## Helper lemmas about the string primitives -/

lemma dropWhile_eq_self_of (p : Char → Bool) (s : Str) (h : ∀ a ∈ s, p a = false) :
    s.dropWhile p = s := by
  cases s with
  | nil => rfl
  | cons a t => simp [List.dropWhile_cons, h a (List.mem_cons_self a t)]

lemma goTrim_eq_self (s : Str) (h : ∀ a ∈ s, goIsSpace a = false) : goTrim s = s := by
  unfold goTrim trimLeft trimRight
  rw [dropWhile_eq_self_of _ _ h,
    dropWhile_eq_self_of _ _ (fun a ha => h a (List.mem_reverse.mp ha)),
    List.reverse_reverse]

lemma isPrefixOf_append_self (l r : Str) : l.isPrefixOf (l ++ r) = true :=
  List.isPrefixOf_iff_prefix.mpr (List.prefix_append l r)

lemma indexOfSub_cons (needle : Str) (b : Char) (bs : Str) :
    indexOfSub needle (b :: bs)
      = if needle.isPrefixOf (b :: bs) = true then some 0
        else (indexOfSub needle bs).map (· + 1) := rfl

lemma indexOfChar_cons (ch b : Char) (bs : Str) :
    indexOfChar ch (b :: bs)
      = if b = ch then some 0 else (indexOfChar ch bs).map (· + 1) := rfl

lemma splitOnChar_cons (c a : Char) (t : Str) :
    splitOnChar c (a :: t)
      = if a = c then [] :: splitOnChar c t
        else
          match splitOnChar c t with
          | [] => [[a]]
          | p :: ps => (a :: p) :: ps := rfl

lemma indexOfSub_append_of (c : Char) (nt pre rest : Str)
    (hpre : ∀ a ∈ pre, a ≠ c) (hp : (c :: nt).isPrefixOf rest = true) :
    indexOfSub (c :: nt) (pre ++ rest) = some pre.length := by
  induction pre with
  | nil =>
    cases rest with
    | nil => exact Bool.noConfusion hp
    | cons b bs =>
      show indexOfSub (c :: nt) (b :: bs) = some 0
      rw [indexOfSub_cons, if_pos hp]
  | cons a t ih =>
    have hca : (c == a) = false :=
      beq_eq_false_iff_ne.mpr (fun h => hpre a (List.mem_cons_self a t) h.symm)
    have hac : List.isPrefixOf (c :: nt) (a :: (t ++ rest)) = false := by
      show (c == a && List.isPrefixOf nt (t ++ rest)) = false
      rw [hca]
      rfl
    show indexOfSub (c :: nt) (a :: (t ++ rest)) = some (a :: t).length
    rw [indexOfSub_cons, if_neg (by simp [hac]),
      ih (fun x hx => hpre x (List.mem_cons_of_mem a hx))]
    rfl

lemma indexOfChar_append_self (c : Char) (xs ys : Str) (hx : ∀ a ∈ xs, a ≠ c) :
    indexOfChar c (xs ++ c :: ys) = some xs.length := by
  induction xs with
  | nil =>
    show indexOfChar c (c :: ys) = some 0
    rw [indexOfChar_cons, if_pos rfl]
  | cons a t ih =>
    have hac : ¬ a = c := hx a (List.mem_cons_self a t)
    show indexOfChar c (a :: (t ++ c :: ys)) = some (a :: t).length
    rw [indexOfChar_cons, if_neg hac, ih (fun x hx2 => hx x (List.mem_cons_of_mem a hx2))]
    rfl

lemma splitOnChar_append_sep (c : Char) (xs ys : Str) (hx : c ∉ xs) :
    splitOnChar c (xs ++ c :: ys) = xs :: splitOnChar c ys := by
  induction xs with
  | nil =>
    show splitOnChar c (c :: ys) = [] :: splitOnChar c ys
    rw [splitOnChar_cons, if_pos rfl]
  | cons a t ih =>
    have hac : ¬ a = c := fun h => hx (h ▸ List.mem_cons_self a t)
    have ht := ih (fun h => hx (List.mem_cons_of_mem a h))
    show splitOnChar c (a :: (t ++ c :: ys)) = (a :: t) :: splitOnChar c ys
    rw [splitOnChar_cons, if_neg hac, ht]

lemma splitOnChar_of_not_mem (c : Char) (xs : Str) (hx : c ∉ xs) :
    splitOnChar c xs = [xs] := by
  induction xs with
  | nil => rfl
  | cons a t ih =>
    have hac : ¬ a = c := fun h => hx (h ▸ List.mem_cons_self a t)
    have ht := ih (fun h => hx (List.mem_cons_of_mem a h))
    rw [splitOnChar_cons, if_neg hac, ht]

lemma indexOfSub_of_min (needle pre post : Str) (hne : needle ≠ [])
    (hmin : ∀ a b : Str, pre ++ (needle ++ post) = a ++ (needle ++ b) → pre.length ≤ a.length) :
    indexOfSub needle (pre ++ (needle ++ post)) = some pre.length := by
  induction pre with
  | nil =>
    cases needle with
    | nil => exact absurd rfl hne
    | cons c nt =>
      have hpref : List.isPrefixOf (c :: nt) (c :: (nt ++ post)) = true := by
        rw [← List.cons_append]
        exact isPrefixOf_append_self (c :: nt) post
      show indexOfSub (c :: nt) (c :: (nt ++ post)) = some 0
      rw [indexOfSub_cons, if_pos hpref]
  | cons x xs ih =>
    by_cases hpf : List.isPrefixOf needle (x :: (xs ++ (needle ++ post))) = true
    · exfalso
      obtain ⟨b, hb⟩ := List.isPrefixOf_iff_prefix.mp hpf
      have h2 := hmin [] b hb.symm
      simp at h2
    · have harg : ∀ a b : Str, xs ++ (needle ++ post) = a ++ (needle ++ b) →
          xs.length ≤ a.length := by
        intro a b hab
        have h2 := hmin (x :: a) b (congrArg (List.cons x) hab)
        simpa using h2
      show indexOfSub needle (x :: (xs ++ (needle ++ post))) = some (x :: xs).length
      rw [indexOfSub_cons, if_neg hpf, ih harg]
      rfl

lemma indexOfSub_some (needle : Str) : ∀ (hay : Str) (i : Nat),
    indexOfSub needle hay = some i →
    needle.isPrefixOf (hay.drop i) = true ∧ ∀ j < i, needle.isPrefixOf (hay.drop j) = false := by
  intro hay
  induction hay with
  | nil =>
    intro i h
    unfold indexOfSub at h
    by_cases hn : needle = []
    · rw [if_pos hn] at h
      obtain rfl : i = 0 := by simpa using h.symm
      subst hn
      exact ⟨rfl, fun j hj => absurd hj (Nat.not_lt_zero j)⟩
    · rw [if_neg hn] at h
      exact absurd h (by simp)
  | cons b bs ih =>
    intro i h
    unfold indexOfSub at h
    by_cases hp : needle.isPrefixOf (b :: bs) = true
    · rw [if_pos hp] at h
      obtain rfl : i = 0 := by simpa using h.symm
      exact ⟨hp, fun j hj => absurd hj (Nat.not_lt_zero j)⟩
    · rw [if_neg hp] at h
      obtain ⟨i2, hi2, rfl⟩ := Option.map_eq_some'.mp h
      obtain ⟨h1, h2⟩ := ih i2 hi2
      refine ⟨by simpa [List.drop_succ_cons] using h1, fun j hj => ?_⟩
      cases j with
      | zero => simpa using Bool.eq_false_iff.mpr hp
      | succ j2 =>
        rw [List.drop_succ_cons]
        exact h2 j2 (Nat.succ_lt_succ_iff.mp hj)

lemma indexOfChar_some (c : Char) : ∀ (s : Str) (j : Nat),
    indexOfChar c s = some j →
    (∀ a ∈ s.take j, a ≠ c) ∧ s = s.take j ++ c :: s.drop (j + 1) := by
  intro s
  induction s with
  | nil => intro j h; exact absurd h (by simp [indexOfChar])
  | cons b bs ih =>
    intro j h
    unfold indexOfChar at h
    by_cases hb : b = c
    · rw [if_pos hb] at h
      obtain rfl : j = 0 := by simpa using h.symm
      subst hb
      exact ⟨by simp, by simp⟩
    · rw [if_neg hb] at h
      obtain ⟨j2, hj2, rfl⟩ := Option.map_eq_some'.mp h
      obtain ⟨h1, h2⟩ := ih j2 hj2
      constructor
      · intro a ha
        rcases List.mem_cons.mp (by simpa [List.take_succ_cons] using ha) with rfl | ha2
        · exact hb
        · exact h1 a ha2
      · conv_lhs => rw [show b :: bs = b :: (bs.take j2 ++ c :: bs.drop (j2 + 1)) from by rw [← h2]]
        simp [List.take_succ_cons, List.drop_succ_cons]

lemma keyIdMarker_ne_nil : keyIdMarker ≠ [] := by decide

/-- Evaluating `parseHeader` on a string decomposed at the first
`keyId="` occurrence: the remainder of the parse depends only on the
quote-free segment `mid` before the closing quote. -/
lemma parseHeader_decomp (pre mid post : Str) (hmid : quoteChar ∉ mid)
    (hidx : indexOfSub keyIdMarker (pre ++ (keyIdMarker ++ (mid ++ quoteChar :: post)))
      = some pre.length) :
    parseHeader (pre ++ (keyIdMarker ++ (mid ++ quoteChar :: post)))
      = (if goTrim mid = [] then none
         else
           match splitOnChar '|' (goTrim mid) with
           | [a, b, c] => some ⟨goTrim a, goTrim b, goTrim c⟩
           | _ => none) := by
  have hdrop : (pre ++ (keyIdMarker ++ (mid ++ quoteChar :: post))).drop
      (pre.length + keyIdMarker.length) = mid ++ quoteChar :: post := by
    rw [show pre ++ (keyIdMarker ++ (mid ++ quoteChar :: post))
        = (pre ++ keyIdMarker) ++ (mid ++ quoteChar :: post) from by simp [List.append_assoc]]
    exact List.drop_left' (by simp)
  have hquote : indexOfChar quoteChar (mid ++ quoteChar :: post) = some mid.length :=
    indexOfChar_append_self quoteChar mid post (fun a ha h => hmid (h ▸ ha))
  have htake : (mid ++ quoteChar :: post).take mid.length = mid := List.take_left mid _
  unfold parseHeader
  rw [hidx]
  simp only [hdrop, hquote, htake]

/-! ## Claim theorems -/

/-- Claim C3 (code bug): `signStep.Run` reads the wall clock twice;
when the two `time.Now()` calls land in unix seconds 10 and 11, the
generated header carries `created=10` and `expires=311`, so
`expires − created = 301 ≠ 300`, against the spec's fixed 300-second
window (the slip is the second `time.Now()` in
`time.Now().Add(5 * time.Minute).Unix()`). -/
theorem sign_window_not_300_at_second_boundary :
    signStepRun "b".data (.ok ⟨"pk".data, "k1".data⟩) (.ok "sg".data) 10 11 .bap
      = .ok (.authSubscriber, generateAuthHeader "b".data "k1".data 10 311 "sg".data)
    ∧ (311 : Int) - 10 = 301 ∧ (301 : Int) ≠ 300 := by
  refine ⟨rfl, by norm_num, by norm_num⟩

/-- Claim C5 (code bug): the dispatcher's `route` recognises only the
target types `url` and `publisher` when `ActAsProxy` is true; the
documented `msgq` target type hits the `default` branch, which sends a
500 NACK (`unknown route type`) and never calls the Publisher — while
the same request with target type `publisher` publishes the body and
returns ACK. -/
theorem route_msgq_hits_default_branch :
    (routeDispatch ⟨"msgq".data, "topic1".data, [], true⟩ "body1".data none none true none
        (some []) none).write
      = .nackResp ⟨500, "NACK".data, "Internal Server Error".data,
          "Internal server error, MessageID: %!s(<nil>)".data, none, none⟩
    ∧ (routeDispatch ⟨"msgq".data, "topic1".data, [], true⟩ "body1".data none none true none
        (some []) none).publishCalls = []
    ∧ (routeDispatch ⟨"publisher".data, "topic1".data, [], true⟩ "body1".data none none true none
        (some []) none).write = .ackResp
    ∧ (routeDispatch ⟨"publisher".data, "topic1".data, [], true⟩ "body1".data none none true none
        (some []) none).publishCalls = [("topic1".data, "body1".data)] := by
  refine ⟨rfl, rfl, rfl, rfl⟩

/-- Claim C7: with `ActAsProxy = false`, the client receives the
`custom-response-body` cookie value (parsed as JSON, or wrapped as
`{"message": value}` on parse failure) with HTTP 200, or an immediate
ACK when the cookie is absent; no synchronous publish happens, and the
deferred hook performing the URL POST or publish is appended to the
post-response hook slice. -/
theorem async_route_body_and_deferred_delivery (r : Route) (body : Str) (cookie : Option Str)
    (unmarshal : Option Json) (pb : Bool) (pubRes : Option GoError) (hs : List Hook)
    (mi : Option Str) (hproxy : r.ActAsProxy = false) :
    (∀ v, cookie = some v →
      (routeDispatch r body cookie unmarshal pb pubRes (some hs) mi).write
        = .bodyResp 200 (parseJSONOrDefault unmarshal v))
    ∧ (∀ v, cookie = some v → unmarshal = none →
      (routeDispatch r body cookie unmarshal pb pubRes (some hs) mi).write
        = .bodyResp 200 (.obj [("message".data, .str v)]))
    ∧ (cookie = none →
      (routeDispatch r body cookie unmarshal pb pubRes (some hs) mi).write = .ackResp)
    ∧ (routeDispatch r body cookie unmarshal pb pubRes (some hs) mi).publishCalls = []
    ∧ (routeDispatch r body cookie unmarshal pb pubRes (some hs) mi).hooksAfter
        = some (hs ++ [hookDeliveries r body pb])
    ∧ (r.TargetType = "url".data → hookDeliveries r body pb = [.httpPost r.URL body])
    ∧ (r.TargetType = "publisher".data → pb = true →
        hookDeliveries r body pb = [.publishCall r.PublisherID body]) := by
  refine ⟨?_, ?_, ?_, ?_, ?_, ?_, ?_⟩
  · rintro v rfl
    simp [routeDispatch, hproxy, SendBody]
  · rintro v rfl rfl
    simp [routeDispatch, hproxy, SendBody, parseJSONOrDefault]
  · rintro rfl
    simp [routeDispatch, hproxy]
  · simp [routeDispatch, hproxy]
  · simp [routeDispatch, hproxy, registerPostResponseHook]
  · intro h
    simp [hookDeliveries, h]
  · intro h hpb
    have hne : ¬ ("publisher".data : Str) = "url".data := by decide
    simp [hookDeliveries, h, hpb, hne]

/-- Claim C7 witness: concrete async dispatch with a cookie whose value
fails JSON parsing, target type `url`. -/
theorem async_route_body_witness :
    (routeDispatch ⟨"url".data, [], "http://u".data, false⟩ "bd".data (some "cv".data) none
        true none (some []) none).write
      = .bodyResp 200 (.obj [("message".data, .str "cv".data)])
    ∧ (routeDispatch ⟨"url".data, [], "http://u".data, false⟩ "bd".data (some "cv".data) none
        true none (some []) none).hooksAfter
      = some ([] ++ [hookDeliveries ⟨"url".data, [], "http://u".data, false⟩ "bd".data true]) := by
  have h := async_route_body_and_deferred_delivery ⟨"url".data, [], "http://u".data, false⟩
    "bd".data (some "cv".data) none true none [] none rfl
  exact ⟨h.2.1 "cv".data rfl rfl, h.2.2.2.2.1⟩

/-- Claim C9: when the subscriber-class `Authorization` header is empty
and the `header_validation` cookie is not `"false"`, the
`validateSign` step succeeds and makes no KeyManager or SignValidator
call. -/
theorem validateSign_absent_header_succeeds (cookie : Option Str) (subID : Str)
    (lookupRes : Except GoError Str) (validateRes : Option GoError)
    (hc : cookie ≠ some "false".data) :
    validateHeadersRun cookie [] subID lookupRes validateRes = (none, [], none) := by
  cases cookie with
  | none => simp [validateHeadersRun]
  | some c =>
    have hcv : ¬ (c = "false".data) := fun h => hc (by rw [h])
    simp [validateHeadersRun, hcv]

/-- Claim C9 witness: concrete instance with no cookie and an
error-returning validator oracle. -/
theorem validateSign_absent_header_witness :
    validateHeadersRun none [] "sub1".data (.ok "pk".data)
        (some (.plainErr "would fail".data)) = (none, [], none) :=
  validateSign_absent_header_succeeds none "sub1".data (.ok "pk".data)
    (some (.plainErr "would fail".data)) (by simp)

/-- Claim C10: with no hook slice attached to the request context,
`RegisterPostResponseHook` silently discards the hook; the async
dispatch still answers ACK, but the post-response phase performs no
delivery. -/
theorem discarded_hook_means_no_delivery (r : Route) (body : Str) (unmarshal : Option Json)
    (pb : Bool) (pubRes : Option GoError) (mi : Option Str) (h : Hook)
    (hproxy : r.ActAsProxy = false) :
    registerPostResponseHook none h = none
    ∧ (routeDispatch r body none unmarshal pb pubRes none mi).write = .ackResp
    ∧ (routeDispatch r body none unmarshal pb pubRes none mi).hooksAfter = none
    ∧ runPostResponseHooks (routeDispatch r body none unmarshal pb pubRes none mi).hooksAfter
        = [] := by
  refine ⟨rfl, ?_, ?_, ?_⟩
  · simp [routeDispatch, hproxy]
  · simp [routeDispatch, hproxy, registerPostResponseHook]
  · simp [routeDispatch, hproxy, registerPostResponseHook, runPostResponseHooks]

/-- Claim C2 counterexample: for a plain unrecognized error, `SendNack`
does write a 500 NACK, but its error message is the generic
`Internal server error, MessageID: …` text of `internalServerError`,
not the literal `INTERNAL_SERVER_ERROR` (the redaction branch in `nack`
only fires when the error code is the string `"500"`, and
`internalServerError` sets `http.StatusText(500)`). -/
theorem sendNack_plain_error_not_redacted :
    SendNack none (.plainErr "boom".data)
      = some ⟨500, "NACK".data, "Internal Server Error".data,
          "Internal server error, MessageID: %!s(<nil>)".data, none, none⟩
    ∧ "Internal server error, MessageID: %!s(<nil>)".data ≠ "INTERNAL_SERVER_ERROR".data := by
  exact ⟨rfl, by decide⟩

/-- Claim C2 (amended): every error that unwraps to none of the
recognized kinds yields HTTP 500 with a NACK whose error message is the
fixed generic text (carrying only the ambient MessageID, never the
underlying error text), which differs from the literal
`INTERNAL_SERVER_ERROR`; the message-level redaction field stays
untouched. -/
theorem sendNack_unrecognized_is_500 (msgID : Option Str) (err : GoError)
    (hw : asWorkbenchErr err = none) (hs : asSchemaErr err = none)
    (hg : asSignErr err = none) (hb : asBadReqErr err = none)
    (hn : asNotFoundErr err = none) :
    SendNack msgID err
      = some ⟨500, "NACK".data, "Internal Server Error".data,
          "Internal server error, MessageID: ".data ++ fmtMsgID msgID, none, none⟩
    ∧ "Internal server error, MessageID: ".data ++ fmtMsgID msgID
        ≠ "INTERNAL_SERVER_ERROR".data := by
  constructor
  · simp only [SendNack, hw, hs, hg, hb, hn]
    simp [nack, internalServerError]
  · intro hEq
    have hlen := congrArg List.length hEq
    rw [List.length_append] at hlen
    have h1 : ("Internal server error, MessageID: ".data).length = 34 := by decide
    have h2 : ("INTERNAL_SERVER_ERROR".data).length = 21 := by decide
    rw [h1, h2] at hlen
    omega

/-- Claim C2 witness: a wrapped plain error with a message id present. -/
theorem sendNack_unrecognized_witness :
    SendNack (some "m1".data) (.wrapped "step failed".data (.plainErr "x".data))
      = some ⟨500, "NACK".data, "Internal Server Error".data,
          "Internal server error, MessageID: ".data ++ fmtMsgID (some "m1".data), none, none⟩ :=
  (sendNack_unrecognized_is_500 (some "m1".data)
    (.wrapped "step failed".data (.plainErr "x".data)) rfl rfl rfl rfl rfl).1

/-- Each failing path is an infix of the serialised `errors[]` payload. -/
lemma path_mem_serialize (errs : List (Str × Str)) (pm : Str × Str) (h : pm ∈ errs) :
    pm.1 <:+: serializeSchemaErrors errs := by
  have h1 : pm.1 ++ ": ".data ++ pm.2 ++ "; ".data
      ∈ errs.map (fun q => q.1 ++ ": ".data ++ q.2 ++ "; ".data) :=
    List.mem_map_of_mem _ h
  have h2 : (pm.1 ++ ": ".data ++ pm.2 ++ "; ".data) <:+: serializeSchemaErrors errs := by
    unfold serializeSchemaErrors
    exact List.infix_of_mem_flatten h1
  have h3 : pm.1 <+: pm.1 ++ ": ".data ++ pm.2 ++ "; ".data :=
    ⟨": ".data ++ pm.2 ++ "; ".data, by simp [List.append_assoc]⟩
  exact h3.isInfix.trans h2

/-- Claim C6: a body whose schema validation produces causes yields a
`model.SchemaValidationErr` carrying one `(path, message)` entry per
cause, and the encoder answers it with an HTTP 200 NACK whose error
payload lists every failing JSON path.  (spec-modelled:
`model.SchemaValidationErr.BecknError()` is not under `src/`; per §7 it
is modelled as serialising the per-field `errors[]` into the NACK
payload.) -/
theorem schema_failure_makes_200_nack (dom ver cv : Str) (causes : List (List Str × Str))
    (msgID : Option Str) (hd : dom ≠ []) (hv : ver ≠ []) :
    schemaValidatorValidate (some (dom, ver, cv)) .found true (.validationError causes)
      = some (.schemaValidationErr (causes.map (fun c => (joinDot c.1, c.2))))
    ∧ ∃ n, SendNack msgID (.schemaValidationErr (causes.map (fun c => (joinDot c.1, c.2))))
          = some n
        ∧ n.httpStatus = 200 ∧ n.ackStatus = "NACK".data
        ∧ ∀ c ∈ causes, joinDot c.1 <:+: n.errMessage := by
  constructor
  · simp [schemaValidatorValidate, hd, hv]
  · refine ⟨nack (schemaBecknError (causes.map (fun q => (joinDot q.1, q.2)))) 200,
      ?_, ?_, ?_, ?_⟩
    · rfl
    · rfl
    · rfl
    intro c hc
    have hmem : (joinDot c.1, c.2) ∈ causes.map (fun c => (joinDot c.1, c.2)) :=
      List.mem_map_of_mem _ hc
    have h4 := path_mem_serialize _ _ hmem
    simpa [nack, schemaBecknError] using h4

/-- Claim C6 witness: one cause at path `context.bap_id`. -/
theorem schema_failure_witness :
    schemaValidatorValidate (some ("ondc:trv10".data, "2.0.0".data, [])) .found true
        (.validationError [(["context".data, "bap_id".data], "missing required".data)])
      = some (.schemaValidationErr [("context.bap_id".data, "missing required".data)]) :=
  (schema_failure_makes_200_nack "ondc:trv10".data "2.0.0".data []
    [(["context".data, "bap_id".data], "missing required".data)] none
    (by decide) (by decide)).1

lemma runStepsFrom_cons (i : Nat) (f : PipeStep) (fs : List PipeStep) (st : StepContext) :
    runStepsFrom i (f :: fs) st
      = match f st with
        | (st', some e) => ⟨st', [i], some e⟩
        | (st', none) =>
          let r := runStepsFrom (i + 1) fs st'
          ⟨r.state, i :: r.trace, r.err⟩ := rfl

/-- The step loop started at position `i` invokes consecutive positions
in order, stops within the list, runs everything on success, and runs at
least one step when it reports an error. -/
lemma runStepsFrom_spec (fs : List PipeStep) : ∀ (i : Nat) (st : StepContext),
    (runStepsFrom i fs st).trace = List.range' i (runStepsFrom i fs st).trace.length
    ∧ (runStepsFrom i fs st).trace.length ≤ fs.length
    ∧ ((runStepsFrom i fs st).err = none → (runStepsFrom i fs st).trace.length = fs.length)
    ∧ ((runStepsFrom i fs st).err ≠ none → 1 ≤ (runStepsFrom i fs st).trace.length) := by
  induction fs with
  | nil =>
    intro i st
    exact ⟨rfl, Nat.le_refl 0, fun _ => rfl, fun h => absurd rfl h⟩
  | cons f fs ih =>
    intro i st
    cases hf : f st with
    | mk st' oe =>
      cases oe with
      | some e =>
        have hrun : runStepsFrom i (f :: fs) st = ⟨st', [i], some e⟩ := by
          rw [runStepsFrom_cons, hf]
        rw [hrun]
        refine ⟨?_, by simp, by simp, fun _ => by simp⟩
        show [i] = List.range' i 1
        simp [List.range'_succ]
      | none =>
        have hrun : runStepsFrom i (f :: fs) st
            = ⟨(runStepsFrom (i + 1) fs st').state, i :: (runStepsFrom (i + 1) fs st').trace,
                (runStepsFrom (i + 1) fs st').err⟩ := by
          rw [runStepsFrom_cons, hf]
        obtain ⟨h1, h2, h3, h4⟩ := ih (i + 1) st'
        rw [hrun]
        refine ⟨?_, ?_, ?_, fun _ => by simp⟩
        · show i :: (runStepsFrom (i + 1) fs st').trace
            = List.range' i (i :: (runStepsFrom (i + 1) fs st').trace).length
          rw [List.length_cons, List.range'_succ]
          exact congrArg (List.cons i) h1
        · simpa using Nat.succ_le_succ h2
        · intro h
          have := h3 h
          simpa using congrArg Nat.succ this

/-- Claim C1: the handler invokes the steps of the configured sequence
in exactly their order (the invocation trace is an initial range of
positions); on success every position runs; if the step at position `i`
errors, the trace is exactly positions `0..i` — nothing past `i` runs —
and `ServeHTTP` surfaces that error to `response.SendNack` as the HTTP
response. -/
theorem pipeline_runs_in_order_and_aborts (steps : List PipeStep) (st : StepContext)
    (msgID : Option Str) :
    (runSteps steps st).trace = List.range (runSteps steps st).trace.length
    ∧ (runSteps steps st).trace.length ≤ steps.length
    ∧ ((runSteps steps st).err = none → (runSteps steps st).trace.length = steps.length)
    ∧ (∀ e, (runSteps steps st).err = some e →
        (∃ i, (runSteps steps st).trace = List.range (i + 1)
          ∧ ∀ j ∈ (runSteps steps st).trace, j ≤ i)
        ∧ serveHTTP steps st msgID = .nackedWith (SendNack msgID e)) := by
  obtain ⟨h1, h2, h3, h4⟩ := runStepsFrom_spec steps 0 st
  refine ⟨by rw [List.range_eq_range']; exact h1, h2, h3, ?_⟩
  intro e he
  have he2 : (runStepsFrom 0 steps st).err = some e := he
  have hlen : 1 ≤ (runSteps steps st).trace.length := h4 (by rw [he2]; simp)
  constructor
  · refine ⟨(runSteps steps st).trace.length - 1, ?_, ?_⟩
    · have heq : (runSteps steps st).trace.length - 1 + 1
          = (runSteps steps st).trace.length := by omega
      rw [heq, List.range_eq_range']
      exact h1
    · intro j hj
      have hj2 : j ∈ List.range (runSteps steps st).trace.length := by
        rw [List.range_eq_range']
        exact h1 ▸ hj
      have := List.mem_range.mp hj2
      omega
  · show serveHTTP steps st msgID = .nackedWith (SendNack msgID e)
    simp only [serveHTTP, he]

/-- Claim C1 witness: three steps of which the second fails; only
positions 0 and 1 run and the error is surfaced. -/
theorem pipeline_order_witness :
    (runSteps [fun st => (st, none), fun st => (st, some (.plainErr "x".data)),
        fun st => (st, none)] ⟨[], [], .bap, none⟩).trace = List.range 2
    ∧ serveHTTP [fun st => (st, none), fun st => (st, some (.plainErr "x".data)),
        fun st => (st, none)] ⟨[], [], .bap, none⟩ none
      = .nackedWith (SendNack none (.plainErr "x".data)) := by
  have h := pipeline_runs_in_order_and_aborts
    [fun st => (st, none), fun st => (st, some (.plainErr "x".data)), fun st => (st, none)]
    ⟨[], [], .bap, none⟩ none
  exact ⟨h.1, (h.2.2.2 (.plainErr "x".data) rfl).2⟩

/-- Claim C4 counterexample: two auth headers built with different
`created`/`expires` values parse to the same result, so parse-after-build
cannot be the identity on the header's six logical fields — `parseHeader`
recovers only the three `keyId` components, never `created`, `expires`
or the signature. -/
theorem parse_does_not_recover_created :
    parseHeader (generateAuthHeader "s".data "k".data 1 301 "g".data)
      = parseHeader (generateAuthHeader "s".data "k".data 2 302 "g".data)
    ∧ (1 : Int) ≠ 2 := by
  exact ⟨by decide, by decide⟩

/-- Claim C4 (amended): for well-formed inputs — `sub` and `kid` free of
`|`, `"` and whitespace — parsing the built `Signature` header recovers
exactly the three `keyId` components `{sub, kid, "ed25519"}`; the
remaining logical fields are not returned by `parseHeader`. -/
theorem parse_after_build_recovers_keyId (sub kid : Str) (c e : Int) (sig : Str)
    (hsub : ∀ a ∈ sub, a ≠ '|' ∧ a ≠ quoteChar ∧ goIsSpace a = false)
    (hkid : ∀ a ∈ kid, a ≠ '|' ∧ a ≠ quoteChar ∧ goIsSpace a = false) :
    parseHeader (generateAuthHeader sub kid c e sig)
      = some ⟨sub, kid, "ed25519".data⟩ := by
  have hshape : ∃ t : Str, generateAuthHeader sub kid c e sig
      = "Signature ".data ++ (keyIdMarker
          ++ ((sub ++ '|' :: (kid ++ '|' :: "ed25519".data)) ++ quoteChar :: t)) := by
    refine ⟨",algorithm=".data ++ [quoteChar] ++ "ed25519".data ++ [quoteChar]
      ++ ",created=".data ++ [quoteChar] ++ (toString c).data ++ [quoteChar]
      ++ ",expires=".data ++ [quoteChar] ++ (toString e).data ++ [quoteChar]
      ++ ",headers=".data ++ [quoteChar] ++ "(created) (expires) digest".data ++ [quoteChar]
      ++ ",signature=".data ++ [quoteChar] ++ sig ++ [quoteChar], ?_⟩
    simp only [generateAuthHeader, keyIdMarker,
      show ("Signature keyId=".data : Str) = "Signature ".data ++ "keyId=".data from by decide,
      show ("|ed25519".data : Str) = '|' :: "ed25519".data from rfl,
      show ("|".data : Str) = ['|'] from rfl,
      List.append_assoc, List.cons_append, List.singleton_append, List.nil_append]
  obtain ⟨tail, htail⟩ := hshape
  have hmid : quoteChar ∉ (sub ++ '|' :: (kid ++ '|' :: "ed25519".data)) := by
    intro hq
    rcases List.mem_append.mp hq with h1 | h2
    · exact (hsub _ h1).2.1 rfl
    · rcases List.mem_cons.mp h2 with h3 | h4
      · exact absurd h3 (by decide)
      · rcases List.mem_append.mp h4 with h5 | h6
        · exact (hkid _ h5).2.1 rfl
        · rcases List.mem_cons.mp h6 with h7 | h8
          · exact absurd h7 (by decide)
          · exact absurd h8 (by decide)
  have hk : keyIdMarker = 'k' :: ("eyId=".data ++ [quoteChar]) := by decide
  have hidx : indexOfSub keyIdMarker ("Signature ".data ++ (keyIdMarker
      ++ ((sub ++ '|' :: (kid ++ '|' :: "ed25519".data)) ++ quoteChar :: tail)))
      = some ("Signature ".data : Str).length := by
    rw [hk]
    exact indexOfSub_append_of 'k' _ _ _ (by decide)
      (isPrefixOf_append_self ('k' :: ("eyId=".data ++ [quoteChar])) _)
  rw [htail, parseHeader_decomp _ _ _ hmid hidx]
  have hnospace : ∀ a ∈ (sub ++ '|' :: (kid ++ '|' :: "ed25519".data)), goIsSpace a = false := by
    intro a ha
    rcases List.mem_append.mp ha with h1 | h2
    · exact (hsub _ h1).2.2
    · rcases List.mem_cons.mp h2 with h3 | h4
      · rw [h3]; decide
      · rcases List.mem_append.mp h4 with h5 | h6
        · exact (hkid _ h5).2.2
        · rcases List.mem_cons.mp h6 with h7 | h8
          · rw [h7]; decide
          · have hd : ∀ x ∈ ("ed25519".data : Str), goIsSpace x = false := by decide
            exact hd a h8
  rw [goTrim_eq_self _ hnospace]
  have hne : ¬ (sub ++ '|' :: (kid ++ '|' :: "ed25519".data)) = [] := by simp
  rw [if_neg hne]
  have hs1 : '|' ∉ sub := fun h => (hsub _ h).1 rfl
  have hk1 : '|' ∉ kid := fun h => (hkid _ h).1 rfl
  rw [splitOnChar_append_sep '|' sub _ hs1, splitOnChar_append_sep '|' kid _ hk1,
    show splitOnChar '|' "ed25519".data = ["ed25519".data] from by decide]
  show some (⟨goTrim sub, goTrim kid, goTrim "ed25519".data⟩ : AuthHeader)
      = some ⟨sub, kid, "ed25519".data⟩
  rw [goTrim_eq_self sub (fun a ha => (hsub a ha).2.2),
    goTrim_eq_self kid (fun a ha => (hkid a ha).2.2),
    show goTrim "ed25519".data = "ed25519".data from by decide]

/-- Claim C4 witness: a concrete well-formed build round-trips on the
`keyId` components. -/
theorem parse_after_build_witness :
    parseHeader (generateAuthHeader "sub1.example.com".data "key-1".data 7 307 "sg".data)
      = some ⟨"sub1.example.com".data, "key-1".data, "ed25519".data⟩ :=
  parse_after_build_recovers_keyId "sub1.example.com".data "key-1".data 7 307 "sg".data
    (by decide) (by decide)

/-- Claim C8: `parseHeader` succeeds exactly when the header splits as
`pre ++ keyId=" ++ mid ++ " ++ post` around the first `keyId="`
occurrence with a quote-free `mid` whose trimmed content splits on `|`
into exactly three components, and then it returns the three trimmed
components; a missing `keyId`, a missing closing quote, or any other
arity fails. -/
theorem parseHeader_success_iff (header : Str) (r : AuthHeader) :
    parseHeader header = some r
      ↔ ∃ pre mid post s k a,
          header = pre ++ (keyIdMarker ++ (mid ++ quoteChar :: post))
          ∧ quoteChar ∉ mid
          ∧ (∀ pre2 post2, header = pre2 ++ (keyIdMarker ++ post2) → pre.length ≤ pre2.length)
          ∧ splitOnChar '|' (goTrim mid) = [s, k, a]
          ∧ r = ⟨goTrim s, goTrim k, goTrim a⟩ := by
  constructor
  · intro h
    cases hidx : indexOfSub keyIdMarker header with
    | none => simp [parseHeader, hidx] at h
    | some i =>
      cases hqt : indexOfChar quoteChar (header.drop (i + keyIdMarker.length)) with
      | none => simp [parseHeader, hidx, hqt] at h
      | some j =>
        obtain ⟨hpd, hmin0⟩ := indexOfSub_some keyIdMarker header i hidx
        have hi_le : i ≤ header.length := by
          by_contra hgt
          push_neg at hgt
          rw [List.drop_eq_nil_of_le (le_of_lt hgt)] at hpd
          exact absurd hpd (by decide)
        obtain ⟨post1, hpost1⟩ := List.isPrefixOf_iff_prefix.mp hpd
        set pre := header.take i with hpre
        have hprelen : pre.length = i := by
          rw [hpre, List.length_take, Nat.min_eq_left hi_le]
        have hheader : header = pre ++ (keyIdMarker ++ post1) := by
          rw [hpost1, hpre]
          exact (List.take_append_drop i header).symm
        have hrest : header.drop (i + keyIdMarker.length) = post1 :=
          calc header.drop (i + keyIdMarker.length)
              = ((pre ++ keyIdMarker) ++ post1).drop (i + keyIdMarker.length) := by
                rw [List.append_assoc, ← hheader]
            _ = post1 := List.drop_left' (by rw [List.length_append, hprelen])
        have hqt2 : indexOfChar quoteChar post1 = some j := by
          rw [← hrest]
          exact hqt
        simp only [parseHeader, hidx, hrest, hqt2] at h
        obtain ⟨hnq, hdecq⟩ := indexOfChar_some quoteChar post1 j hqt2
        by_cases hz : goTrim (post1.take j) = []
        · rw [if_pos hz] at h
          exact Option.noConfusion h
        · rw [if_neg hz] at h
          cases hsp : splitOnChar '|' (goTrim (post1.take j)) with
          | nil => rw [hsp] at h; exact Option.noConfusion h
          | cons s t1 =>
            cases t1 with
            | nil => rw [hsp] at h; exact Option.noConfusion h
            | cons k t2 =>
              cases t2 with
              | nil => rw [hsp] at h; exact Option.noConfusion h
              | cons a t3 =>
                cases t3 with
                | cons x t4 => rw [hsp] at h; exact Option.noConfusion h
                | nil =>
                  rw [hsp] at h
                  refine ⟨pre, post1.take j, post1.drop (j + 1), s, k, a, ?_, ?_, ?_, hsp, ?_⟩
                  · rw [hheader]
                    conv_lhs => rw [hdecq]
                  · intro hq
                    exact (hnq quoteChar hq) rfl
                  · intro pre2 post2 hdec2
                    by_contra hlt
                    push_neg at hlt
                    have hpf2 : List.isPrefixOf keyIdMarker (header.drop pre2.length) = true := by
                      rw [hdec2, List.drop_left]
                      exact isPrefixOf_append_self _ _
                    rw [hmin0 pre2.length (by omega)] at hpf2
                    exact Bool.noConfusion hpf2
                  · injection h with h5
                    exact h5.symm
  · rintro ⟨pre, mid, post, s, k, a, hdec, hmid, hmin, hsplit, hr⟩
    subst hdec
    have hidx := indexOfSub_of_min keyIdMarker pre (mid ++ quoteChar :: post)
      keyIdMarker_ne_nil hmin
    rw [parseHeader_decomp pre mid post hmid hidx]
    have hne : goTrim mid ≠ [] := by
      intro h0
      rw [h0] at hsplit
      simp [splitOnChar] at hsplit
    rw [if_neg hne, hsplit, hr]

/-- Claim C8 witness: a concrete header with surrounding text parses to
its three trimmed `keyId` components, via the success
characterisation. -/
theorem parseHeader_success_witness :
    parseHeader ("x keyId=".data ++ [quoteChar] ++ "a|b|c".data ++ [quoteChar] ++ " t".data)
      = some ⟨"a".data, "b".data, "c".data⟩ := by
  refine (parseHeader_success_iff _ _).mpr
    ⟨"x ".data, "a|b|c".data, " t".data, "a".data, "b".data, "c".data, by decide, by decide,
      ?_, by decide, by decide⟩
  intro pre2 post2 hEq
  by_contra hlt
  push_neg at hlt
  have hpf : List.isPrefixOf keyIdMarker
      (("x keyId=".data ++ [quoteChar] ++ "a|b|c".data ++ [quoteChar] ++ " t".data).drop
        pre2.length) = true := by
    rw [hEq, List.drop_left]
    exact isPrefixOf_append_self _ _
  have h01 : pre2.length = 0 ∨ pre2.length = 1 := by
    have : pre2.length < ("x ".data : Str).length := hlt
    simp at this
    omega
  rcases h01 with h0 | h1
  · rw [h0] at hpf
    exact absurd hpf (by decide)
  · rw [h1] at hpf
    exact absurd hpf (by decide)

/-- Claim C10 witness: concrete async route with no attached hook
slice. -/
theorem discarded_hook_witness :
    (routeDispatch ⟨"url".data, [], "http://u".data, false⟩ "bd".data none none true none
        none none).write = .ackResp
    ∧ runPostResponseHooks (routeDispatch ⟨"url".data, [], "http://u".data, false⟩ "bd".data
        none none true none none none).hooksAfter = [] := by
  have h := discarded_hook_means_no_delivery ⟨"url".data, [], "http://u".data, false⟩
    "bd".data none true none none [] rfl
  exact ⟨h.2.1, h.2.2.2⟩

end BecknOnix
